import Mathlib

/-!
Shallow embedding of the steampipe-plugin-nextcloud repository.

The repository is a Steampipe data-source plugin for the Nextcloud OCS API.
We embed, from the Go source:
  * the connection-config validation and client construction
    (`src/nextcloud/connection_config.go`, `NewNextcloudClient`, `GetConfig`),
  * the HTTP request wrapper (`MakeRequest`) with its 4xx/5xx classification,
  * the OCS JSON envelope decoding (the `encoding/json` unmarshalling of the
    `ocsActivityListResponse` / `ocsShareListResponse` structs),
  * the table handlers `listActivity` / `getActivity`
    (`src/unnamed/part_001`, the current activity table) and
    `listShares` / `getShare` (`src/nextcloud/table_nextcloud_files_sharing.go`),
  * `strconv.ParseInt` for base-10 64-bit identifiers.

Modelling conventions:
  * Go `*string` is `Option String`; a nil pointer is `none`.
  * Machine integers (`int`, `int64`) are `Int`; the only place the 64-bit
    bound matters is `strconv.ParseInt`, which range-checks explicitly.
  * The network is an oracle: handlers take the outcome of the HTTP round
    trip (`DoResult`) as an explicit argument.  The JSON-grammar parse of the
    response body is performed by the external `encoding/json` package, so a
    response carries both its raw text and its parse result (`BodyJson`);
    `BodyJson.malformed` models a body that is not valid JSON.
  * `time.Time` fields are modelled by their canonical RFC3339 wire text:
    Go marshals a `time.Time` to that string and unmarshals it back to an
    equal time, and no handler logic inspects the value.
  * Go errors are strings; the handlers' distinct `return nil, fmt.Errorf`
    sites are tagged by the constructors of `NcError` so that the error
    categories of the spec (transport / decode / logical-API / not-found)
    are distinguishable, with the formatted Go message kept inside.
  * A Go runtime panic (the failed type assertion in the older duplicate
    `GetConfig`) is modelled as `Except.error`.
-/

/-- JSON values, as produced by Go's `encoding/json` generic decoding.
Numeric literals are restricted to integers: every numeric field of the
embedded structs is a Go `int`/`int64`, and `encoding/json` rejects
fractional literals for those fields. -/
inductive Json where
  | null
  | bool (b : Bool)
  | num (n : Int)
  | str (s : String)
  | arr (elems : List Json)
  | obj (fields : List (String × Json))

/-- `isPre p l` is true when `p` is a leading segment of `l`
(character-list level, used for `strings.HasSuffix` and substring search). -/
def isPre : List Char → List Char → Bool
  | [], _ => true
  | _ :: _, [] => false
  | a :: as, b :: bs => (a == b) && isPre as bs

/-- `hasSub sub l` is true when `sub` occurs contiguously inside `l`. -/
def hasSub (sub : List Char) : List Char → Bool
  | [] => isPre sub []
  | c :: ls => isPre sub (c :: ls) || hasSub sub ls

/-- `strHasSub s sub`: the text `sub` occurs inside the text `s`. -/
def strHasSub (s sub : String) : Bool :=
  hasSub sub.data s.data

/-- `strings.HasSuffix s suffix`. -/
def hasSuffix (s suffix : String) : Bool :=
  isPre suffix.data.reverse s.data.reverse

/-- Number of `'/'` characters at the end of a string (to state the
trailing-separator property of the normalized base URL). -/
def trailingSlashes (s : String) : Nat :=
  (s.data.reverse.takeWhile (fun c => c == '/')).length

/-- `NextcloudConfig` (connection_config.go): three optional strings,
Go `*string` fields. -/
structure NextcloudConfig where
  serverURL : Option String
  username : Option String
  password : Option String

/-- The zero value `&NextcloudConfig{}`: all pointers nil. -/
def emptyConfig : NextcloudConfig := ⟨none, none, none⟩

/-- `NextcloudClient` (connection_config.go).  The embedded `http.Client`
(timeout 30s) carries no data relevant to the claims and is omitted. -/
structure NextcloudClient where
  baseURL : String
  username : String
  password : String

/-- The dynamic type of the `interface{}` value stored in `conn.Config`:
a `*NextcloudConfig`, a `NextcloudConfig` value, or any other type. -/
inductive ConnConfigValue where
  | ptrConfig (cfg : NextcloudConfig)
  | valConfig (cfg : NextcloudConfig)
  | otherType

/-- `plugin.Connection`: only its `Config interface{}` field is read.
`config = none` models a nil `conn.Config`. -/
structure Connection where
  config : Option ConnConfigValue

/-- `GetConfig` from `src/nextcloud/connection_config.go` (lines 144-157):
nil connection or nil config yield an empty config; a `*NextcloudConfig` or
`NextcloudConfig` value is returned; any other dynamic type falls to the
`default` arm returning an empty config.  The outer `Option` models a nil
`*plugin.Connection`. -/
def GetConfig : Option Connection → NextcloudConfig
  | none => emptyConfig
  | some conn =>
    match conn.config with
    | none => emptyConfig
    | some (.ptrConfig cfg) => cfg
    | some (.valConfig cfg) => cfg
    | some .otherType => emptyConfig

/-- `GetConfig` from the older duplicate file `src/unnamed/part_000`
(lines 140-145): after the nil checks it performs the unchecked type
assertion `conn.Config.(*NextcloudConfig)`, which panics at runtime when the
stored value is not a `*NextcloudConfig`; the panic is modelled as
`Except.error`. -/
def GetConfigAssert : Option Connection → Except String NextcloudConfig
  | none => .ok emptyConfig
  | some conn =>
    match conn.config with
    | none => .ok emptyConfig
    | some (.ptrConfig cfg) => .ok cfg
    | some (.valConfig _) =>
      .error "panic: interface conversion: conn.Config is not *NextcloudConfig"
    | some .otherType =>
      .error "panic: interface conversion: conn.Config is not *NextcloudConfig"

/-- Base-URL normalization of `NewNextcloudClient` (connection_config.go,
lines 68-71): append `"/"` exactly when the URL does not already end in it. -/
def normalizeBaseURL (u : String) : String :=
  if hasSuffix u "/" then u else u ++ "/"

/-- The pure validation part of `NewNextcloudClient` (lines 49-71): the three
presence checks in source order, then the base-URL normalization.  (The Go
code normalizes after the password check; the factoring is value-identical.) -/
def validateConfig (cfg : NextcloudConfig) : Except String NextcloudClient :=
  match cfg.serverURL with
  | none => .error "server_url must be configured"
  | some u =>
    if u = "" then .error "server_url must be configured"
    else
      match cfg.username with
      | none => .error "username must be configured"
      | some un =>
        if un = "" then .error "username must be configured"
        else
          match cfg.password with
          | none => .error "password must be configured"
          | some pw =>
            if pw = "" then .error "password must be configured"
            else .ok ⟨normalizeBaseURL u, un, pw⟩

/-- `NewNextcloudClient` (connection_config.go, lines 39-79): read the config
from the connection, validate it, then immediately run `TestConnection` on
the constructed client; a probe failure is wrapped with the
connection-context message.  `probe` is the outcome of `TestConnection` for
a given client (the network is external). -/
def NewNextcloudClient (conn : Option Connection)
    (probe : NextcloudClient → Except String Unit) : Except String NextcloudClient :=
  match validateConfig (GetConfig conn) with
  | .error e => .error e
  | .ok client =>
    match probe client with
    | .error e => .error ("unable to connect to Nextcloud: " ++ e)
    | .ok _ => .ok client

/-- `TestConnection` (lines 131-140): a `GetJSON` call on the capabilities
endpoint; its failure is wrapped with "connection test failed".  `fetch` is
the outcome of `GetJSON` (request plus JSON decode into a generic map). -/
def TestConnection (fetch : Except String Json) : Except String Unit :=
  match fetch with
  | .error e => .error ("connection test failed: " ++ e)
  | .ok _ => .ok ()

/-- The JSON parse (by the external `encoding/json` grammar) of a response
body: either a parse failure with the parser's message, or a JSON value. -/
inductive BodyJson where
  | malformed (e : String)
  | parsed (j : Json)

/-- An HTTP response as seen by `MakeRequest`'s caller: status code, the raw
body text, and the body's JSON parse result. -/
structure HttpResp where
  statusCode : Int
  rawBody : String
  body : BodyJson

/-- The outcome of the steps of `MakeRequest` that touch the outside world:
`url.Parse` failure, `http.NewRequestWithContext` failure,
`HTTPClient.Do` failure, or a delivered response. -/
inductive DoResult where
  | urlInvalid (e : String)
  | reqCreateFailed (e : String)
  | doFailed (e : String)
  | response (statusCode : Int) (rawBody : String) (body : BodyJson)

/-- `MakeRequest` (connection_config.go, lines 82-118): propagate the
wrapped failures of the three fallible steps, and convert any response with
status ≥ 400 into an error embedding the numeric status and the raw body
text; responses below 400 are returned as successes. -/
def MakeRequest (outcome : DoResult) : Except String HttpResp :=
  match outcome with
  | .urlInvalid e => .error ("invalid URL: " ++ e)
  | .reqCreateFailed e => .error ("failed to create request: " ++ e)
  | .doFailed e => .error ("request failed: " ++ e)
  | .response code raw body =>
    if 400 ≤ code then
      .error ("Nextcloud API error " ++ toString code ++ ": " ++ raw)
    else
      .ok ⟨code, raw, body⟩

/-- `Activity` (src/unnamed/part_001, lines 17-29).  `SubjectRich` is a Go
`interface{}` and holds the generic JSON value; `SubjectParams` is a Go
`[]string` whose nil slice is `none`; `Time` is the canonical RFC3339 wire
text of the `time.Time` value. -/
structure Activity where
  activityID : Int
  app : String
  type : String
  subject : String
  subjectRich : Json
  subjectParams : Option (List String)
  objectType : String
  objectID : Int
  objectName : String
  time : String
  user : String

/-- The zero `Activity` value (what `encoding/json` leaves untouched). -/
def zeroActivity : Activity :=
  ⟨0, "", "", "", .null, none, "", 0, "", "", ""⟩

/-- The `meta` part of the OCS envelope. -/
structure OcsMeta where
  status : String
  statusCode : Int
  message : String

/-- `ocsActivityListResponse` (part_001, lines 32-41), flattened: the `ocs`
wrapper carries `meta` and `data`. -/
structure OcsActivityListResponse where
  meta : OcsMeta
  data : List Activity

/-- `ocsShare` (table_nextcloud_files_sharing.go, lines 15-30). -/
structure OcsShare where
  id : String
  shareType : Int
  shareWith : String
  shareWithDisplayName : String
  path : String
  permissions : Int
  password : Option String
  publicUpload : Bool
  expireDate : Option String
  url : String
  uidOwner : String
  owner : String
  timeCreated : Int
  timeModified : Int

/-- The zero `ocsShare` value. -/
def zeroShare : OcsShare :=
  ⟨"", 0, "", "", "", 0, none, false, none, "", "", "", 0, 0⟩

/-- `ocsShareListResponse` (table_nextcloud_files_sharing.go, lines 33-42),
flattened like the activity envelope. -/
structure OcsShareListResponse where
  meta : OcsMeta
  data : List OcsShare

/-- Field lookup in a decoded JSON object, as `encoding/json` resolves a
struct tag: of duplicate keys the last one wins.  (The case-insensitive
fallback match is not modelled; every envelope in the source uses the exact
lowercase tags.) -/
def lookupField (fields : List (String × Json)) (key : String) : Option Json :=
  match fields.reverse.find? (fun kv => kv.1 == key) with
  | some kv => some kv.2
  | none => none

/-- Unmarshal a `string` struct field: absent or `null` leaves the zero
value, a JSON string is taken as is, anything else is a type error. -/
def decStringField (fields : List (String × Json)) (key : String) : Except String String :=
  match lookupField fields key with
  | none => .ok ""
  | some .null => .ok ""
  | some (.str s) => .ok s
  | some _ => .error ("json: cannot unmarshal value into field " ++ key ++ " of type string")

/-- Unmarshal an `int`/`int64` struct field. -/
def decIntField (fields : List (String × Json)) (key : String) : Except String Int :=
  match lookupField fields key with
  | none => .ok 0
  | some .null => .ok 0
  | some (.num n) => .ok n
  | some _ => .error ("json: cannot unmarshal value into field " ++ key ++ " of type int64")

/-- Unmarshal a `bool` struct field. -/
def decBoolField (fields : List (String × Json)) (key : String) : Except String Bool :=
  match lookupField fields key with
  | none => .ok false
  | some .null => .ok false
  | some (.bool b) => .ok b
  | some _ => .error ("json: cannot unmarshal value into field " ++ key ++ " of type bool")

/-- Unmarshal a `*string` struct field: absent or `null` is a nil pointer. -/
def decOptStringField (fields : List (String × Json)) (key : String) :
    Except String (Option String) :=
  match lookupField fields key with
  | none => .ok none
  | some .null => .ok none
  | some (.str s) => .ok (some s)
  | some _ => .error ("json: cannot unmarshal value into field " ++ key ++ " of type *string")

/-- Unmarshal an `interface{}` struct field: any JSON value is accepted;
an absent field leaves the nil interface, represented as `Json.null`. -/
def decAnyField (fields : List (String × Json)) (key : String) : Except String Json :=
  match lookupField fields key with
  | none => .ok .null
  | some v => .ok v

/-- Unmarshal one element of a `[]string` value. -/
def decStringElem (j : Json) : Except String String :=
  match j with
  | .str s => .ok s
  | _ => .error "json: cannot unmarshal value into element of type string"

/-- Unmarshal a `[]string` struct field: absent or `null` is a nil slice. -/
def decStringListField (fields : List (String × Json)) (key : String) :
    Except String (Option (List String)) :=
  match lookupField fields key with
  | none => .ok none
  | some .null => .ok none
  | some (.arr xs) => do
    let ss ← xs.mapM decStringElem
    .ok (some ss)
  | some _ => .error ("json: cannot unmarshal value into field " ++ key ++ " of type []string")

/-- Unmarshal a `time.Time` struct field from its RFC3339 string (the value
is kept as the wire text; absent or `null` leaves the zero time, written ""). -/
def decTimeField (fields : List (String × Json)) (key : String) : Except String String :=
  match lookupField fields key with
  | none => .ok ""
  | some .null => .ok ""
  | some (.str s) => .ok s
  | some _ => .error ("json: cannot unmarshal value into field " ++ key ++ " of type time.Time")

/-- Unmarshal one `Activity` record by its struct tags (part_001). -/
def decodeActivity (j : Json) : Except String Activity :=
  match j with
  | .null => .ok zeroActivity
  | .obj fields => do
    let aid ← decIntField fields "activity_id"
    let app ← decStringField fields "app"
    let ty ← decStringField fields "type"
    let subj ← decStringField fields "subject"
    let rich ← decAnyField fields "subject_rich"
    let params ← decStringListField fields "subject_params"
    let otype ← decStringField fields "object_type"
    let oid ← decIntField fields "object_id"
    let oname ← decStringField fields "object_name"
    let t ← decTimeField fields "datetime"
    let u ← decStringField fields "user"
    .ok ⟨aid, app, ty, subj, rich, params, otype, oid, oname, t, u⟩
  | _ => .error "json: cannot unmarshal value into Go value of type Activity"

/-- Unmarshal one `ocsShare` record by its struct tags. -/
def decodeShare (j : Json) : Except String OcsShare :=
  match j with
  | .null => .ok zeroShare
  | .obj fields => do
    let id ← decStringField fields "id"
    let sty ← decIntField fields "share_type"
    let sw ← decStringField fields "share_with"
    let swd ← decStringField fields "share_with_displayname"
    let path ← decStringField fields "path"
    let perms ← decIntField fields "permissions"
    let pw ← decOptStringField fields "password"
    let pub ← decBoolField fields "public_upload"
    let exp ← decOptStringField fields "expire_date"
    let url ← decStringField fields "url"
    let uo ← decStringField fields "uid_owner"
    let ow ← decStringField fields "displayname_owner"
    let tc ← decIntField fields "stime"
    let tm ← decIntField fields "item_mtime"
    .ok ⟨id, sty, sw, swd, path, perms, pw, pub, exp, url, uo, ow, tc, tm⟩
  | _ => .error "json: cannot unmarshal value into Go value of type ocsShare"

/-- Unmarshal the `meta` object of an envelope. -/
def decodeOcsMeta (j : Json) : Except String OcsMeta :=
  match j with
  | .null => .ok ⟨"", 0, ""⟩
  | .obj fields => do
    let st ← decStringField fields "status"
    let sc ← decIntField fields "statuscode"
    let msg ← decStringField fields "message"
    .ok ⟨st, sc, msg⟩
  | _ => .error "json: cannot unmarshal value into Go value of type meta"

/-- Unmarshal the `data` array of an activity envelope (`[]Activity`):
absent or `null` is the nil slice. -/
def decodeActivityData (j : Json) : Except String (List Activity) :=
  match j with
  | .null => .ok []
  | .arr xs => xs.mapM decodeActivity
  | _ => .error "json: cannot unmarshal value into Go value of type []Activity"

/-- Unmarshal the `data` array of a share envelope (`[]ocsShare`). -/
def decodeShareData (j : Json) : Except String (List OcsShare) :=
  match j with
  | .null => .ok []
  | .arr xs => xs.mapM decodeShare
  | _ => .error "json: cannot unmarshal value into Go value of type []ocsShare"

/-- The shared decoding of the `ocs` wrapper: resolve the `ocs` key, then
`meta` and `data` inside it; an absent or `null` stage leaves zero values. -/
def decodeOcsEnvelope (decData : Json → Except String α) (zero : α) (j : Json) :
    Except String (OcsMeta × α) :=
  match j with
  | .null => .ok (⟨"", 0, ""⟩, zero)
  | .obj fields =>
    match (lookupField fields "ocs").getD .null with
    | .null => .ok (⟨"", 0, ""⟩, zero)
    | .obj ofields => do
      let meta ← decodeOcsMeta ((lookupField ofields "meta").getD .null)
      let data ← decData ((lookupField ofields "data").getD .null)
      .ok (meta, data)
    | _ => .error "json: cannot unmarshal value into Go value of type ocs"
  | _ => .error "json: cannot unmarshal value into Go value of type response"

/-- `json.Decode` into `ocsActivityListResponse`. -/
def decodeOcsActivityListResponse (j : Json) : Except String OcsActivityListResponse :=
  match decodeOcsEnvelope decodeActivityData [] j with
  | .error e => .error e
  | .ok (meta, data) => .ok ⟨meta, data⟩

/-- `json.Decode` into `ocsShareListResponse`. -/
def decodeOcsShareListResponse (j : Json) : Except String OcsShareListResponse :=
  match decodeOcsEnvelope decodeShareData [] j with
  | .error e => .error e
  | .ok (meta, data) => .ok ⟨meta, data⟩

/-- The distinct error-return sites of the handlers, tagged by the spec's
error taxonomy; each constructor carries the formatted Go error text. -/
inductive NcError where
  | client (msg : String)
  | transport (msg : String)
  | decode (msg : String)
  | ocs (msg : String)
  | notFound (msg : String)
  | qual (msg : String)

/-- `strconv.ParseInt(s, 10, 64)`: digit accumulation of the core loop. -/
def parseNatCore : List Char → Nat → Option Nat
  | [], acc => some acc
  | c :: cs, acc =>
    if '0' ≤ c ∧ c ≤ '9' then parseNatCore cs (acc * 10 + (c.toNat - 48))
    else none

/-- `strconv.ParseInt(s, 10, 64)`: optional sign, at least one decimal
digit, 64-bit range check (negative values may reach `2^63`, positive ones
only `2^63 - 1`); any violation is an error (`none`). -/
def parseInt64 (s : String) : Option Int :=
  match s.data with
  | [] => none
  | c :: cs =>
    if c = '-' then
      match cs with
      | [] => none
      | _ :: _ =>
        match parseNatCore cs 0 with
        | none => none
        | some m => if (m : Int) ≤ 9223372036854775808 then some (-(m : Int)) else none
    else if c = '+' then
      match cs with
      | [] => none
      | _ :: _ =>
        match parseNatCore cs 0 with
        | none => none
        | some m => if (m : Int) ≤ 9223372036854775807 then some m else none
    else
      match parseNatCore (c :: cs) 0 with
      | none => none
      | some m => if (m : Int) ≤ 9223372036854775807 then some m else none

/-- `listActivity` (part_001, lines 73-117).  Inputs: the `GetClient`
outcome, the HTTP round-trip outcome, and the optional `user_id` equality
qualifier (its `GetStringValue`).  The returned list is the sequence of rows
passed to `d.StreamListItem`, in order. -/
def listActivity (clientRes : Except String NextcloudClient) (outcome : DoResult)
    (qualUserId : Option String) : Except NcError (List Activity) :=
  match clientRes with
  | .error e => .error (.client e)
  | .ok _ =>
    match MakeRequest outcome with
    | .error e => .error (.transport e)
    | .ok resp =>
      match resp.body with
      | .malformed e =>
        .error (.decode ("échec du décodage JSON Nextcloud Activity : " ++ e))
      | .parsed j =>
        match decodeOcsActivityListResponse j with
        | .error e =>
          .error (.decode ("échec du décodage JSON Nextcloud Activity : " ++ e))
        | .ok result =>
          if result.meta.status ≠ "ok" then
            .error (.ocs ("erreur OCS API : " ++ result.meta.message ++
              " (code : " ++ toString result.meta.statusCode ++ ")"))
          else
            .ok (match qualUserId with
              | some uid => result.data.filter (fun a => a.user == uid)
              | none => result.data)

/-- `getActivity` (part_001, lines 120-167).  Inputs: the `id` qualifier
(its `GetStringValue`), the `GetClient` outcome and the round-trip outcome.
The id is parsed with `strconv.ParseInt(id, 10, 64)`, the full collection is
re-fetched and scanned linearly for the first matching `ActivityID`. -/
def getActivity (qualId : Option String) (clientRes : Except String NextcloudClient)
    (outcome : DoResult) : Except NcError Activity :=
  match qualId with
  | none => .error (.qual "id qualifier not provided")
  | some id =>
    match parseInt64 id with
    | none => .error (.qual ("invalid ID format: " ++ id))
    | some idInt =>
      match clientRes with
      | .error e => .error (.client e)
      | .ok _ =>
        match MakeRequest outcome with
        | .error e => .error (.transport e)
        | .ok resp =>
          match resp.body with
          | .malformed e =>
            .error (.decode ("échec du décodage JSON Nextcloud Activity : " ++ e))
          | .parsed j =>
            match decodeOcsActivityListResponse j with
            | .error e =>
              .error (.decode ("échec du décodage JSON Nextcloud Activity : " ++ e))
            | .ok result =>
              if result.meta.status ≠ "ok" then
                .error (.ocs ("OCS API error: " ++ result.meta.message ++
                  " (code: " ++ toString result.meta.statusCode ++ ")"))
              else
                match result.data.find? (fun a => a.activityID == idInt) with
                | some a => .ok a
                | none => .error (.notFound ("activity with ID " ++ id ++ " not found"))

/-- `listShares` (table_nextcloud_files_sharing.go, lines 77-101): no
qualifier; every decoded share is streamed. -/
def listShares (clientRes : Except String NextcloudClient) (outcome : DoResult) :
    Except NcError (List OcsShare) :=
  match clientRes with
  | .error e => .error (.client e)
  | .ok _ =>
    match MakeRequest outcome with
    | .error e => .error (.transport e)
    | .ok resp =>
      match resp.body with
      | .malformed e =>
        .error (.decode ("error decoding JSON Nextcloud Shares: " ++ e))
      | .parsed j =>
        match decodeOcsShareListResponse j with
        | .error e =>
          .error (.decode ("error decoding JSON Nextcloud Shares: " ++ e))
        | .ok result =>
          if result.meta.status ≠ "ok" then
            .error (.ocs ("OCS API error: " ++ result.meta.message ++
              " (code " ++ toString result.meta.statusCode ++ ")"))
          else
            .ok result.data

/-- `getShare` (table_nextcloud_files_sharing.go, lines 104-131).  The `id`
qualifier is read with `GetInt64Value` (no parsing).  A non-"ok" status or
an empty data array both take the single `"share with ID %d not found"`
return; otherwise `Data[0]` is returned without any identifier check. -/
def getShare (qualId : Option Int) (clientRes : Except String NextcloudClient)
    (outcome : DoResult) : Except NcError OcsShare :=
  match qualId with
  | none => .error (.qual "id qualifier not provided")
  | some id =>
    match clientRes with
    | .error e => .error (.client e)
    | .ok _ =>
      match MakeRequest outcome with
      | .error e => .error (.transport e)
      | .ok resp =>
        match resp.body with
        | .malformed e =>
          .error (.decode ("error decoding JSON Nextcloud Share detail: " ++ e))
        | .parsed j =>
          match decodeOcsShareListResponse j with
          | .error e =>
            .error (.decode ("error decoding JSON Nextcloud Share detail: " ++ e))
          | .ok result =>
            if result.meta.status ≠ "ok" then
              .error (.notFound ("share with ID " ++ toString id ++ " not found"))
            else
              match result.data with
              | [] => .error (.notFound ("share with ID " ++ toString id ++ " not found"))
              | share :: _ => .ok share

/-- `json.Marshal` of one `Activity` value (part_001 struct tags, in field
order); the `interface{}` field marshals to the JSON value it holds, a nil
`[]string` slice marshals to `null`, and the `time.Time` field to its
RFC3339 text. -/
def marshalActivity (a : Activity) : Json :=
  .obj [("activity_id", .num a.activityID),
        ("app", .str a.app),
        ("type", .str a.type),
        ("subject", .str a.subject),
        ("subject_rich", a.subjectRich),
        ("subject_params",
          match a.subjectParams with
          | none => .null
          | some xs => .arr (xs.map Json.str)),
        ("object_type", .str a.objectType),
        ("object_id", .num a.objectID),
        ("object_name", .str a.objectName),
        ("datetime", .str a.time),
        ("user", .str a.user)]

/-- A synthetic OCS envelope in the exact wire shape the source structs
declare: `{ocs: {meta: {status, statuscode, message}, data: [...]}}`. -/
def mkOcsEnvelope (status : String) (code : Int) (msg : String)
    (data : List Json) : Json :=
  .obj [("ocs", .obj
    [("meta", .obj [("status", .str status), ("statuscode", .num code),
                    ("message", .str msg)]),
     ("data", .arr data)])]

/-- Decimal text of a natural number (the canonical wire representation of
a non-negative identifier). -/
def natDecimalString (n : Nat) : String :=
  if n = 0 then "0"
  else ⟨(Nat.digits 10 n).reverse.map (fun d => Char.ofNat (48 + d))⟩

/-- Decimal text of an `int64` identifier, sign included. -/
def intDecimalString (n : Int) : String :=
  if n < 0 then "-" ++ natDecimalString n.natAbs else natDecimalString n.toNat

theorem isPre_self_append (p r : List Char) : isPre p (p ++ r) = true := by
  induction p with
  | nil => rfl
  | cons a as ih => simp [isPre, ih]

theorem hasSub_self_append (p y : List Char) : hasSub p (p ++ y) = true := by
  cases p with
  | nil =>
    cases y with
    | nil => rfl
    | cons c t => simp [hasSub, isPre]
  | cons a as =>
    show (isPre (a :: as) ((a :: as) ++ y) || hasSub (a :: as) (as ++ y)) = true
    rw [isPre_self_append]
    rfl

theorem hasSub_append (p x y : List Char) : hasSub p (x ++ (p ++ y)) = true := by
  induction x with
  | nil => simpa using hasSub_self_append p y
  | cons a x' ih => simp [hasSub, ih]

/-- If a string is literally a concatenation around `sub`, the substring
test succeeds. -/
theorem strHasSub_intro (s a sub b : String)
    (h : s.data = a.data ++ (sub.data ++ b.data)) : strHasSub s sub = true := by
  unfold strHasSub
  rw [h]
  exact hasSub_append _ _ _

/-- A required config field is nil or empty (the condition the Go presence
checks reject). -/
def missingStr (o : Option String) : Prop := o = none ∨ o = some ""

/-- C5: a response with HTTP status ≥ 400 always makes `MakeRequest` return
an error whose text contains both the numeric status code and the raw body
text (even when the body is not JSON), and such a response is never
returned as a success. -/
theorem makeRequest_status_ge400_error (code : Int) (raw : String) (body : BodyJson)
    (h : 400 ≤ code) :
    MakeRequest (.response code raw body) =
      .error ("Nextcloud API error " ++ toString code ++ ": " ++ raw) ∧
    strHasSub ("Nextcloud API error " ++ toString code ++ ": " ++ raw) (toString code) = true ∧
    strHasSub ("Nextcloud API error " ++ toString code ++ ": " ++ raw) raw = true ∧
    ∀ r : HttpResp, MakeRequest (.response code raw body) ≠ .ok r := by
  refine ⟨?_, ?_, ?_, ?_⟩
  · simp [MakeRequest, h]
  · exact strHasSub_intro _ "Nextcloud API error " (toString code) (": " ++ raw)
      (by simp [String.data_append])
  · exact strHasSub_intro _ ("Nextcloud API error " ++ toString code ++ ": ") raw ""
      (by simp [String.data_append])
  · intro r hr
    simp [MakeRequest, h] at hr

theorem makeRequest_status_ge400_error_witness :
    (400 : Int) ≤ 404 ∧
    (MakeRequest (.response 404 "<html>oops</html>" (.malformed "x")) =
      .error ("Nextcloud API error " ++ toString (404 : Int) ++ ": " ++ "<html>oops</html>") ∧
    strHasSub ("Nextcloud API error " ++ toString (404 : Int) ++ ": " ++ "<html>oops</html>")
      (toString (404 : Int)) = true ∧
    strHasSub ("Nextcloud API error " ++ toString (404 : Int) ++ ": " ++ "<html>oops</html>")
      "<html>oops</html>" = true ∧
    ∀ r : HttpResp, MakeRequest (.response 404 "<html>oops</html>" (.malformed "x")) ≠ .ok r) :=
  ⟨by decide, makeRequest_status_ge400_error 404 "<html>oops</html>" (.malformed "x") (by decide)⟩

/-- C6: whenever one of the three required config fields is nil or empty,
client construction fails with the error that names the specific missing
field (the first missing one in the source's check order), and that field
is indeed missing. -/
theorem config_missing_field_named (conn : Option Connection)
    (probe : NextcloudClient → Except String Unit)
    (h : missingStr (GetConfig conn).serverURL ∨ missingStr (GetConfig conn).username ∨
         missingStr (GetConfig conn).password) :
    (NewNextcloudClient conn probe = .error "server_url must be configured" ∧
       missingStr (GetConfig conn).serverURL ∧
       strHasSub "server_url must be configured" "server_url" = true) ∨
    (NewNextcloudClient conn probe = .error "username must be configured" ∧
       missingStr (GetConfig conn).username ∧
       strHasSub "username must be configured" "username" = true) ∨
    (NewNextcloudClient conn probe = .error "password must be configured" ∧
       missingStr (GetConfig conn).password ∧
       strHasSub "password must be configured" "password" = true) := by
  rcases hsu : (GetConfig conn).serverURL with _ | u
  · exact Or.inl ⟨by simp [NewNextcloudClient, validateConfig, hsu], Or.inl rfl, by decide⟩
  · by_cases hu : u = ""
    · subst hu
      exact Or.inl ⟨by simp [NewNextcloudClient, validateConfig, hsu], Or.inr rfl, by decide⟩
    · rcases hun : (GetConfig conn).username with _ | un
      · exact Or.inr (Or.inl ⟨by simp [NewNextcloudClient, validateConfig, hsu, hu, hun],
          Or.inl rfl, by decide⟩)
      · by_cases hn : un = ""
        · subst hn
          exact Or.inr (Or.inl ⟨by simp [NewNextcloudClient, validateConfig, hsu, hu, hun],
            Or.inr rfl, by decide⟩)
        · rcases hpw : (GetConfig conn).password with _ | pw
          · exact Or.inr (Or.inr ⟨by simp [NewNextcloudClient, validateConfig, hsu, hu, hun, hn, hpw],
              Or.inl rfl, by decide⟩)
          · by_cases hp : pw = ""
            · subst hp
              exact Or.inr (Or.inr ⟨by simp [NewNextcloudClient, validateConfig, hsu, hu, hun, hn, hpw],
                Or.inr rfl, by decide⟩)
            · exfalso
              rcases h with hm | hm | hm <;>
                · rcases hm with hm | hm <;> simp_all

theorem config_missing_field_named_witness :
    (missingStr (GetConfig (some ⟨some (.ptrConfig ⟨some "http://h", none, some "p"⟩)⟩)).serverURL ∨
     missingStr (GetConfig (some ⟨some (.ptrConfig ⟨some "http://h", none, some "p"⟩)⟩)).username ∨
     missingStr (GetConfig (some ⟨some (.ptrConfig ⟨some "http://h", none, some "p"⟩)⟩)).password) ∧
    ((NewNextcloudClient (some ⟨some (.ptrConfig ⟨some "http://h", none, some "p"⟩)⟩)
        (fun _ => .ok ()) = .error "server_url must be configured" ∧
       missingStr (GetConfig (some ⟨some (.ptrConfig ⟨some "http://h", none, some "p"⟩)⟩)).serverURL ∧
       strHasSub "server_url must be configured" "server_url" = true) ∨
     (NewNextcloudClient (some ⟨some (.ptrConfig ⟨some "http://h", none, some "p"⟩)⟩)
        (fun _ => .ok ()) = .error "username must be configured" ∧
       missingStr (GetConfig (some ⟨some (.ptrConfig ⟨some "http://h", none, some "p"⟩)⟩)).username ∧
       strHasSub "username must be configured" "username" = true) ∨
     (NewNextcloudClient (some ⟨some (.ptrConfig ⟨some "http://h", none, some "p"⟩)⟩)
        (fun _ => .ok ()) = .error "password must be configured" ∧
       missingStr (GetConfig (some ⟨some (.ptrConfig ⟨some "http://h", none, some "p"⟩)⟩)).password ∧
       strHasSub "password must be configured" "password" = true)) :=
  ⟨Or.inr (Or.inl (Or.inl rfl)),
   config_missing_field_named _ (fun _ => .ok ()) (Or.inr (Or.inl (Or.inl rfl)))⟩

/-- C7: client construction probes connectivity after validation: an `ok`
result pins the probe's success on the very client that is returned (no
client is ever returned unverified), and a failing probe on the validated
client makes construction fail with the probe's error wrapped in the
connection-context message. -/
theorem construction_probe_contract (conn : Option Connection)
    (probe : NextcloudClient → Except String Unit) :
    (∀ c, NewNextcloudClient conn probe = .ok c →
       probe c = .ok () ∧ validateConfig (GetConfig conn) = .ok c) ∧
    (∀ c e, validateConfig (GetConfig conn) = .ok c → probe c = .error e →
       NewNextcloudClient conn probe = .error ("unable to connect to Nextcloud: " ++ e)) := by
  constructor
  · intro c hc
    unfold NewNextcloudClient at hc
    rcases hv : validateConfig (GetConfig conn) with e | cl
    · rw [hv] at hc
      simp at hc
    · rw [hv] at hc
      simp only at hc
      rcases hp : probe cl with e | u
      · rw [hp] at hc
        simp at hc
      · rw [hp] at hc
        simp only [Except.ok.injEq] at hc
        subst hc
        exact ⟨by rw [hp], rfl⟩
  · intro c e hv hp
    unfold NewNextcloudClient
    rw [hv]
    simp only
    rw [hp]

theorem construction_probe_contract_witness :
    validateConfig (GetConfig (some ⟨some (.ptrConfig ⟨some "http://h", some "u", some "p"⟩)⟩)) =
      .ok ⟨"http://h/", "u", "p"⟩ ∧
    NewNextcloudClient (some ⟨some (.ptrConfig ⟨some "http://h", some "u", some "p"⟩)⟩)
      (fun _ => .error "connection test failed: request failed: refused") =
      .error ("unable to connect to Nextcloud: " ++
        "connection test failed: request failed: refused") :=
  ⟨rfl,
   (construction_probe_contract _ _).2 ⟨"http://h/", "u", "p"⟩
     "connection test failed: request failed: refused" rfl rfl⟩

/-- C10 counterexample: the `GetConfig` variant of the older duplicate file
(`src/unnamed/part_000`) is not panic-free: on a connection whose `Config`
holds an unexpected dynamic type, the unchecked type assertion
`conn.Config.(*NextcloudConfig)` panics (modelled as `Except.error`) instead
of returning an empty config. -/
theorem getConfigAssert_panics_on_unexpected_type :
    GetConfigAssert (some ⟨some .otherType⟩) =
      .error "panic: interface conversion: conn.Config is not *NextcloudConfig" ∧
    GetConfigAssert (some ⟨some .otherType⟩) ≠ .ok emptyConfig := by
  exact ⟨rfl, by simp [GetConfigAssert]⟩

/-- C10 amended: the `GetConfig` of `src/nextcloud/connection_config.go` is
total — a nil connection, a nil `Config`, and an unexpected dynamic type all
yield the empty config, and both expected dynamic types yield the stored
config — while the older duplicate's variant panics on an unexpected type. -/
theorem getConfig_total_cases :
    GetConfig none = emptyConfig ∧
    GetConfig (some ⟨none⟩) = emptyConfig ∧
    GetConfig (some ⟨some .otherType⟩) = emptyConfig ∧
    (∀ cfg, GetConfig (some ⟨some (.ptrConfig cfg)⟩) = cfg) ∧
    (∀ cfg, GetConfig (some ⟨some (.valConfig cfg)⟩) = cfg) ∧
    (∀ cfg, GetConfigAssert (some ⟨some (.valConfig cfg)⟩) ≠ .ok cfg) :=
  ⟨rfl, rfl, rfl, fun _ => rfl, fun _ => rfl, fun _ => by simp [GetConfigAssert]⟩

theorem hasSuffix_slash_trailing (u : String) (h : hasSuffix u "/" = true) :
    1 ≤ trailingSlashes u := by
  unfold hasSuffix at h
  unfold trailingSlashes
  have hd : ("/" : String).data.reverse = ['/'] := rfl
  rw [hd] at h
  cases hrev : u.data.reverse with
  | nil => rw [hrev] at h; exact absurd h (by decide)
  | cons c t =>
    rw [hrev] at h
    have h1 : ('/' == c) = true := by
      cases hcc : ('/' == c) with
      | true => rfl
      | false =>
        rw [show isPre ['/'] (c :: t) = (('/' == c) && isPre [] t) from rfl, hcc] at h
        simp [isPre] at h
    have hc : c = '/' := (beq_iff_eq.mp h1).symm
    subst hc
    simp [List.takeWhile_cons]

theorem trailing_of_append_slash (u : String) (h : hasSuffix u "/" = false) :
    trailingSlashes (u ++ "/") = 1 := by
  unfold hasSuffix at h
  unfold trailingSlashes
  rw [String.data_append, List.reverse_append]
  have hd : ("/" : String).data.reverse = ['/'] := rfl
  rw [show ("/" : String).data = ['/'] from rfl]
  rw [hd] at h
  cases hrev : u.data.reverse with
  | nil => decide
  | cons c t =>
    rw [hrev] at h
    have h1 : ('/' == c) = false := by
      cases hcc : ('/' == c) with
      | false => rfl
      | true =>
        rw [show isPre ['/'] (c :: t) = (('/' == c) && isPre [] t) from rfl, hcc] at h
        simp [isPre] at h
    have hc : (c == '/') = false := by
      cases hcc : (c == '/') with
      | false => rfl
      | true =>
        rw [beq_iff_eq] at hcc
        rw [hcc] at h1
        exact absurd h1 (by decide)
    simp [List.takeWhile_cons, hc]

/-- C2 counterexample: a valid config whose server URL already ends in two
separators is kept as is, so the constructed base URL ends in two trailing
separators, not exactly one. -/
theorem baseURL_two_trailing_separators :
    NewNextcloudClient (some ⟨some (.ptrConfig ⟨some "http://h//", some "u", some "p"⟩)⟩)
      (fun _ => .ok ()) = .ok ⟨"http://h//", "u", "p"⟩ ∧
    trailingSlashes "http://h//" = 2 := by
  constructor
  · rfl
  · decide

/-- C2 amended: for every valid config triple, the constructed base URL is
the input URL with a separator appended exactly when one was absent; it
always ends in at least one separator, and in exactly one whenever the
input ended in at most one. -/
theorem baseURL_normalization (u un pw : String)
    (hu : u ≠ "") (hn : un ≠ "") (hp : pw ≠ "") :
    NewNextcloudClient (some ⟨some (.ptrConfig ⟨some u, some un, some pw⟩)⟩)
      (fun _ => .ok ()) = .ok ⟨normalizeBaseURL u, un, pw⟩ ∧
    1 ≤ trailingSlashes (normalizeBaseURL u) ∧
    (trailingSlashes u ≤ 1 → trailingSlashes (normalizeBaseURL u) = 1) := by
  refine ⟨by simp [NewNextcloudClient, validateConfig, GetConfig, hu, hn, hp], ?_, ?_⟩
  · cases hs : hasSuffix u "/" with
    | true =>
      simpa [normalizeBaseURL, hs] using hasSuffix_slash_trailing u hs
    | false => simp [normalizeBaseURL, hs, trailing_of_append_slash u hs]
  · intro hle
    cases hs : hasSuffix u "/" with
    | true =>
      simp only [normalizeBaseURL, hs, if_true]
      exact le_antisymm hle (hasSuffix_slash_trailing u hs)
    | false => simp [normalizeBaseURL, hs, trailing_of_append_slash u hs]

theorem baseURL_normalization_witness :
    ("http://h" : String) ≠ "" ∧ ("u" : String) ≠ "" ∧ ("p" : String) ≠ "" ∧
    (NewNextcloudClient (some ⟨some (.ptrConfig ⟨some "http://h", some "u", some "p"⟩)⟩)
      (fun _ => .ok ()) = .ok ⟨normalizeBaseURL "http://h", "u", "p"⟩ ∧
    1 ≤ trailingSlashes (normalizeBaseURL "http://h") ∧
    (trailingSlashes "http://h" ≤ 1 → trailingSlashes (normalizeBaseURL "http://h") = 1)) :=
  ⟨by decide, by decide, by decide,
   baseURL_normalization "http://h" "u" "p" (by decide) (by decide) (by decide)⟩

theorem makeRequest_200 (raw : String) (b : BodyJson) :
    MakeRequest (.response 200 raw b) = .ok ⟨200, raw, b⟩ := by
  unfold MakeRequest
  simp only
  rw [if_neg (by decide)]

theorem listActivity_decoded (cl : NextcloudClient) (raw : String) (j : Json)
    (env : OcsActivityListResponse) (qual : Option String)
    (hdec : decodeOcsActivityListResponse j = .ok env) :
    listActivity (.ok cl) (.response 200 raw (.parsed j)) qual =
      (if env.meta.status ≠ "ok" then
        .error (.ocs ("erreur OCS API : " ++ env.meta.message ++
          " (code : " ++ toString env.meta.statusCode ++ ")"))
      else
        .ok (match qual with
          | some uid => env.data.filter (fun a => a.user == uid)
          | none => env.data)) := by
  unfold listActivity
  rw [makeRequest_200]
  simp only
  rw [hdec]

theorem decStringElem_map_str (xs : List String) :
    (xs.map Json.str).mapM decStringElem = Except.ok xs := by
  induction xs with
  | nil => rfl
  | cons x xs ih =>
    rw [List.map_cons, List.mapM_cons, ih]
    rfl

theorem decodeActivity_marshal (a : Activity) :
    decodeActivity (marshalActivity a) = .ok a := by
  obtain ⟨aid, app, ty, subj, rich, params, otype, oid, oname, t, u⟩ := a
  cases params with
  | none => rfl
  | some xs =>
    simp [decodeActivity, marshalActivity, decStringListField, lookupField,
      decIntField, decStringField, decAnyField, decTimeField]
    rw [show List.mapM.loop decStringElem (List.map Json.str xs) [] = Except.ok xs from
      decStringElem_map_str xs]
    rfl

theorem getActivity_decoded (ids : String) (idn : Int) (cl : NextcloudClient)
    (raw : String) (j : Json) (env : OcsActivityListResponse)
    (hid : parseInt64 ids = some idn)
    (hdec : decodeOcsActivityListResponse j = .ok env) :
    getActivity (some ids) (.ok cl) (.response 200 raw (.parsed j)) =
      (if env.meta.status ≠ "ok" then
        .error (.ocs ("OCS API error: " ++ env.meta.message ++
          " (code: " ++ toString env.meta.statusCode ++ ")"))
      else
        match env.data.find? (fun a => a.activityID == idn) with
        | some a => .ok a
        | none => .error (.notFound ("activity with ID " ++ ids ++ " not found"))) := by
  unfold getActivity
  simp only
  rw [hid]
  simp only
  rw [makeRequest_200]
  simp only
  rw [hdec]

theorem listShares_decoded (cl : NextcloudClient) (raw : String) (j : Json)
    (env : OcsShareListResponse)
    (hdec : decodeOcsShareListResponse j = .ok env) :
    listShares (.ok cl) (.response 200 raw (.parsed j)) =
      (if env.meta.status ≠ "ok" then
        .error (.ocs ("OCS API error: " ++ env.meta.message ++
          " (code " ++ toString env.meta.statusCode ++ ")"))
      else .ok env.data) := by
  unfold listShares
  rw [makeRequest_200]
  simp only
  rw [hdec]

theorem getShare_decoded (id : Int) (cl : NextcloudClient) (raw : String) (j : Json)
    (env : OcsShareListResponse)
    (hdec : decodeOcsShareListResponse j = .ok env) :
    getShare (some id) (.ok cl) (.response 200 raw (.parsed j)) =
      (if env.meta.status ≠ "ok" then
        .error (.notFound ("share with ID " ++ toString id ++ " not found"))
      else
        match env.data with
        | [] => .error (.notFound ("share with ID " ++ toString id ++ " not found"))
        | share :: _ => .ok share) := by
  unfold getShare
  simp only
  rw [makeRequest_200]
  simp only
  rw [hdec]

theorem decode_envelope_marshal (st : String) (c : Int) (m : String) (a : Activity) :
    decodeOcsActivityListResponse (mkOcsEnvelope st c m [marshalActivity a]) =
      .ok ⟨⟨st, c, m⟩, [a]⟩ := by
  simp [decodeOcsActivityListResponse, decodeOcsEnvelope, mkOcsEnvelope, lookupField,
    decodeOcsMeta, decStringField, decIntField, decodeActivityData]
  rw [show List.mapM.loop decodeActivity [marshalActivity a] [] =
    Except.ok [a] from by
      have h1 : ([marshalActivity a]).mapM decodeActivity = Except.ok [a] := by
        rw [List.mapM_cons, decodeActivity_marshal]; rfl
      exact h1]
  rfl

theorem parseInt64_minus_cons (c : Char) (cs : List Char) :
    parseInt64 ⟨'-' :: c :: cs⟩ =
      (match parseNatCore (c :: cs) 0 with
       | none => none
       | some m => if (m : Int) ≤ 9223372036854775808 then some (-(m : Int)) else none) := by
  unfold parseInt64
  simp only
  simp

theorem parseInt64_cons (c : Char) (cs : List Char) (hc1 : ¬(c = '-')) (hc2 : ¬(c = '+')) :
    parseInt64 ⟨c :: cs⟩ =
      (match parseNatCore (c :: cs) 0 with
       | none => none
       | some m => if (m : Int) ≤ 9223372036854775807 then some m else none) := by
  unfold parseInt64
  simp only
  rw [if_neg hc1, if_neg hc2]

theorem parseNatCore_digits (ds : List Nat) (acc : Nat) (h : ∀ d ∈ ds, d < 10) :
    parseNatCore (ds.map (fun d => Char.ofNat (48 + d))) acc =
      some (ds.foldl (fun a d => a * 10 + d) acc) := by
  induction ds generalizing acc with
  | nil => rfl
  | cons d ds ih =>
    have hd : d < 10 := h d (List.mem_cons_self d ds)
    have hcond : ('0' ≤ Char.ofNat (48 + d) ∧ Char.ofNat (48 + d) ≤ '9') := by
      interval_cases d <;> decide
    have htoNat : (Char.ofNat (48 + d)).toNat - 48 = d := by
      interval_cases d <;> decide
    simp only [List.map_cons, parseNatCore]
    rw [if_pos hcond, htoNat, ih _ (fun x hx => h x (List.mem_cons_of_mem _ hx))]
    rw [List.foldl_cons]

theorem foldl_rev_digits (L : List Nat) (acc : Nat) :
    L.reverse.foldl (fun a d => a * 10 + d) acc = acc * 10 ^ L.length + Nat.ofDigits 10 L := by
  induction L generalizing acc with
  | nil => simp
  | cons d L ih =>
    rw [List.reverse_cons, List.foldl_append]
    simp only [List.foldl_cons, List.foldl_nil]
    rw [ih, Nat.ofDigits_cons, List.length_cons, pow_succ]
    ring

theorem parseNatCore_digits_rev (m : Nat) :
    parseNatCore ((Nat.digits 10 m).reverse.map (fun d => Char.ofNat (48 + d))) 0 = some m := by
  rw [parseNatCore_digits _ 0 (fun d hd =>
    Nat.digits_lt_base (by norm_num) (List.mem_reverse.mp hd))]
  rw [foldl_rev_digits]
  simp [Nat.ofDigits_digits]

theorem natDecimalString_cons (m : Nat) (hm : m ≠ 0) :
    ∃ d ds, (Nat.digits 10 m).reverse = d :: ds ∧ d < 10 ∧
      natDecimalString m = ⟨Char.ofNat (48 + d) :: ds.map (fun x => Char.ofNat (48 + x))⟩ := by
  rcases hds : (Nat.digits 10 m).reverse with _ | ⟨d, ds⟩
  · exfalso
    exact Nat.digits_ne_nil_iff_ne_zero.mpr hm (List.reverse_eq_nil_iff.mp hds)
  · refine ⟨d, ds, rfl, ?_, ?_⟩
    · have hmem : d ∈ Nat.digits 10 m := by
        rw [← List.mem_reverse, hds]
        exact List.mem_cons_self d ds
      exact Nat.digits_lt_base (by norm_num) hmem
    · unfold natDecimalString
      rw [if_neg hm, hds, List.map_cons]

theorem parse_intDecimalString (n : Int) (h₁ : -9223372036854775808 ≤ n)
    (h₂ : n ≤ 9223372036854775807) :
    parseInt64 (intDecimalString n) = some n := by
  rcases lt_trichotomy n 0 with hneg | hzero | hpos
  · have hm : n.natAbs ≠ 0 := by omega
    obtain ⟨d, ds, hds, hd10, hstr⟩ := natDecimalString_cons n.natAbs hm
    unfold intDecimalString
    rw [if_pos hneg, hstr]
    rw [show ("-" : String) ++ ⟨Char.ofNat (48 + d) :: ds.map (fun x => Char.ofNat (48 + x))⟩
        = ⟨'-' :: Char.ofNat (48 + d) :: ds.map (fun x => Char.ofNat (48 + x))⟩ from rfl]
    rw [parseInt64_minus_cons]
    have hp : parseNatCore (Char.ofNat (48 + d) :: ds.map (fun x => Char.ofNat (48 + x))) 0
        = some n.natAbs := by
      have h3 := parseNatCore_digits_rev n.natAbs
      rw [hds, List.map_cons] at h3
      exact h3
    rw [hp]
    simp only
    rw [if_pos (show (n.natAbs : Int) ≤ 9223372036854775808 by omega)]
    congr 1
    omega
  · subst hzero
    decide
  · have hm : n.toNat ≠ 0 := by omega
    obtain ⟨d, ds, hds, hd10, hstr⟩ := natDecimalString_cons n.toNat hm
    unfold intDecimalString
    rw [if_neg (show ¬ n < 0 by omega), hstr]
    rw [parseInt64_cons _ _ (by interval_cases d <;> decide) (by interval_cases d <;> decide)]
    have hp : parseNatCore (Char.ofNat (48 + d) :: ds.map (fun x => Char.ofNat (48 + x))) 0
        = some n.toNat := by
      have h3 := parseNatCore_digits_rev n.toNat
      rw [hds, List.map_cons] at h3
      exact h3
    rw [hp]
    simp only
    rw [if_pos (show (n.toNat : Int) ≤ 9223372036854775807 by omega)]
    congr 1
    omega

/-- C3: on a successfully decoded envelope with status "ok", the activity
list operation emits exactly the records of the `data` array: all of them
when no qualifier is supplied, and exactly those whose `user` field equals
the qualifier's value when a `user_id` equality qualifier is present. -/
theorem listActivity_qualifier_filter (cl : NextcloudClient) (raw : String) (j : Json)
    (env : OcsActivityListResponse) (qual : Option String)
    (hdec : decodeOcsActivityListResponse j = .ok env)
    (hok : env.meta.status = "ok") :
    listActivity (.ok cl) (.response 200 raw (.parsed j)) qual =
      .ok (match qual with
        | some uid => env.data.filter (fun a => a.user == uid)
        | none => env.data) := by
  rw [listActivity_decoded cl raw j env qual hdec]
  rw [if_neg (by simp [hok])]

theorem listActivity_qualifier_filter_witness :
    decodeOcsActivityListResponse (mkOcsEnvelope "ok" 200 "OK"
      [marshalActivity ⟨1, "files", "t", "s", .null, none, "o", 0, "n", "", "a"⟩,
       marshalActivity ⟨2, "files", "t", "s", .null, none, "o", 0, "n", "", "b"⟩]) =
      .ok ⟨⟨"ok", 200, "OK"⟩,
        [⟨1, "files", "t", "s", .null, none, "o", 0, "n", "", "a"⟩,
         ⟨2, "files", "t", "s", .null, none, "o", 0, "n", "", "b"⟩]⟩ ∧
    listActivity (.ok ⟨"http://h/", "u", "p"⟩)
      (.response 200 "raw" (.parsed (mkOcsEnvelope "ok" 200 "OK"
        [marshalActivity ⟨1, "files", "t", "s", .null, none, "o", 0, "n", "", "a"⟩,
         marshalActivity ⟨2, "files", "t", "s", .null, none, "o", 0, "n", "", "b"⟩])))
      (some "b") = .ok [⟨2, "files", "t", "s", .null, none, "o", 0, "n", "", "b"⟩] :=
  ⟨rfl, listActivity_qualifier_filter ⟨"http://h/", "u", "p"⟩ "raw"
    (mkOcsEnvelope "ok" 200 "OK"
      [marshalActivity ⟨1, "files", "t", "s", .null, none, "o", 0, "n", "", "a"⟩,
       marshalActivity ⟨2, "files", "t", "s", .null, none, "o", 0, "n", "", "b"⟩])
    ⟨⟨"ok", 200, "OK"⟩,
      [⟨1, "files", "t", "s", .null, none, "o", 0, "n", "", "a"⟩,
       ⟨2, "files", "t", "s", .null, none, "o", 0, "n", "", "b"⟩]⟩
    (some "b") rfl rfl⟩

/-- C8: marshalling any activity record into a synthetic OCS envelope with
status "ok" and decoding it through the list handler yields exactly that
record back — identity on every field (id, app, type, subject, rich
subject, params, object fields, timestamp, user). -/
theorem activity_envelope_roundtrip (a : Activity) (cl : NextcloudClient) (raw : String) :
    listActivity (.ok cl)
      (.response 200 raw (.parsed (mkOcsEnvelope "ok" 200 "OK" [marshalActivity a])))
      none = .ok [a] := by
  rw [listActivity_decoded cl raw _ ⟨⟨"ok", 200, "OK"⟩, [a]⟩ none
    (decode_envelope_marshal "ok" 200 "OK" a)]
  simp

/-- C1 counterexample: for the share get handler, a well-formed envelope
with a non-"ok" status (message "boom", statuscode 999) does not yield a
logical-API error carrying the envelope's message and status code — it is
collapsed into the not-found error, whose text contains neither. -/
theorem getShare_nonOk_status_counterexample :
    getShare (some 5) (.ok ⟨"http://h/", "u", "p"⟩)
      (.response 200 "raw" (.parsed (mkOcsEnvelope "error" 999 "boom" []))) =
      .error (.notFound "share with ID 5 not found") ∧
    strHasSub "share with ID 5 not found" "boom" = false ∧
    strHasSub "share with ID 5 not found" "999" = false := by
  refine ⟨rfl, by decide, by decide⟩

/-- C1 amended: a decoded envelope with `meta.status ≠ "ok"` yields the
logical-API (`ocs`) error — a category distinct from transport errors —
whose text carries the envelope's message and status code, for the activity
list, activity get and shares list handlers; the share get handler instead
reports such an envelope as its not-found error naming only the requested
identifier. -/
theorem ocs_status_error_reporting (meta : OcsMeta) (dA : List Activity)
    (dS : List OcsShare) (jA jS : Json) (cl : NextcloudClient) (raw : String)
    (qual : Option String) (ids : String) (idn idS : Int)
    (hA : decodeOcsActivityListResponse jA = .ok ⟨meta, dA⟩)
    (hS : decodeOcsShareListResponse jS = .ok ⟨meta, dS⟩)
    (hid : parseInt64 ids = some idn)
    (hst : meta.status ≠ "ok") :
    (listActivity (.ok cl) (.response 200 raw (.parsed jA)) qual =
       .error (.ocs ("erreur OCS API : " ++ meta.message ++
         " (code : " ++ toString meta.statusCode ++ ")")) ∧
     strHasSub ("erreur OCS API : " ++ meta.message ++
       " (code : " ++ toString meta.statusCode ++ ")") meta.message = true ∧
     strHasSub ("erreur OCS API : " ++ meta.message ++
       " (code : " ++ toString meta.statusCode ++ ")") (toString meta.statusCode) = true) ∧
    (getActivity (some ids) (.ok cl) (.response 200 raw (.parsed jA)) =
       .error (.ocs ("OCS API error: " ++ meta.message ++
         " (code: " ++ toString meta.statusCode ++ ")")) ∧
     strHasSub ("OCS API error: " ++ meta.message ++
       " (code: " ++ toString meta.statusCode ++ ")") meta.message = true ∧
     strHasSub ("OCS API error: " ++ meta.message ++
       " (code: " ++ toString meta.statusCode ++ ")") (toString meta.statusCode) = true) ∧
    (listShares (.ok cl) (.response 200 raw (.parsed jS)) =
       .error (.ocs ("OCS API error: " ++ meta.message ++
         " (code " ++ toString meta.statusCode ++ ")")) ∧
     strHasSub ("OCS API error: " ++ meta.message ++
       " (code " ++ toString meta.statusCode ++ ")") meta.message = true ∧
     strHasSub ("OCS API error: " ++ meta.message ++
       " (code " ++ toString meta.statusCode ++ ")") (toString meta.statusCode) = true) ∧
    (getShare (some idS) (.ok cl) (.response 200 raw (.parsed jS)) =
       .error (.notFound ("share with ID " ++ toString idS ++ " not found"))) ∧
    (∀ s t, NcError.ocs s ≠ NcError.transport t) := by
  refine ⟨⟨?_, ?_, ?_⟩, ⟨?_, ?_, ?_⟩, ⟨?_, ?_, ?_⟩, ?_, ?_⟩
  · rw [listActivity_decoded cl raw jA ⟨meta, dA⟩ qual hA]
    simp [hst]
  · exact strHasSub_intro _ "erreur OCS API : " meta.message
      (" (code : " ++ toString meta.statusCode ++ ")") (by simp [String.data_append])
  · exact strHasSub_intro _ ("erreur OCS API : " ++ meta.message ++ " (code : ")
      (toString meta.statusCode) ")" (by simp [String.data_append])
  · rw [getActivity_decoded ids idn cl raw jA ⟨meta, dA⟩ hid hA]
    simp [hst]
  · exact strHasSub_intro _ "OCS API error: " meta.message
      (" (code: " ++ toString meta.statusCode ++ ")") (by simp [String.data_append])
  · exact strHasSub_intro _ ("OCS API error: " ++ meta.message ++ " (code: ")
      (toString meta.statusCode) ")" (by simp [String.data_append])
  · rw [listShares_decoded cl raw jS ⟨meta, dS⟩ hS]
    simp [hst]
  · exact strHasSub_intro _ "OCS API error: " meta.message
      (" (code " ++ toString meta.statusCode ++ ")") (by simp [String.data_append])
  · exact strHasSub_intro _ ("OCS API error: " ++ meta.message ++ " (code ")
      (toString meta.statusCode) ")" (by simp [String.data_append])
  · rw [getShare_decoded idS cl raw jS ⟨meta, dS⟩ hS]
    simp [hst]
  · intro s t h
    exact NcError.noConfusion h

theorem ocs_status_error_reporting_witness :
    parseInt64 "7" = some 7 ∧
    (⟨"failure", 999, "boom"⟩ : OcsMeta).status ≠ "ok" ∧
    listActivity (.ok ⟨"http://h/", "u", "p"⟩)
      (.response 200 "raw" (.parsed (mkOcsEnvelope "failure" 999 "boom" []))) none =
      .error (.ocs ("erreur OCS API : " ++ "boom" ++
        " (code : " ++ toString (999 : Int) ++ ")")) ∧
    getShare (some 5) (.ok ⟨"http://h/", "u", "p"⟩)
      (.response 200 "raw" (.parsed (mkOcsEnvelope "failure" 999 "boom" []))) =
      .error (.notFound ("share with ID " ++ toString (5 : Int) ++ " not found")) := by
  have h := ocs_status_error_reporting ⟨"failure", 999, "boom"⟩ [] []
    (mkOcsEnvelope "failure" 999 "boom" []) (mkOcsEnvelope "failure" 999 "boom" [])
    ⟨"http://h/", "u", "p"⟩ "raw" none "7" 7 5 rfl rfl rfl (by decide)
  exact ⟨rfl, by decide, h.1.1, h.2.2.2.1⟩

/-- C4 counterexample: the share get handler does not check the identifier
of the returned record: on a successful envelope whose data holds only a
share with id "7", a request for id 5 returns that share instead of a
not-found error, although no record with the requested identifier exists. -/
theorem getShare_mismatched_record_counterexample :
    decodeOcsShareListResponse (mkOcsEnvelope "ok" 100 "OK"
      [Json.obj [("id", Json.str "7"), ("path", Json.str "/f")]]) =
      .ok ⟨⟨"ok", 100, "OK"⟩,
        [⟨"7", 0, "", "", "/f", 0, none, false, none, "", "", "", 0, 0⟩]⟩ ∧
    getShare (some 5) (.ok ⟨"http://h/", "u", "p"⟩)
      (.response 200 "raw" (.parsed (mkOcsEnvelope "ok" 100 "OK"
        [Json.obj [("id", Json.str "7"), ("path", Json.str "/f")]]))) =
      .ok ⟨"7", 0, "", "", "/f", 0, none, false, none, "", "", "", 0, 0⟩ ∧
    ("7" : String) ≠ "5" ∧
    toString (5 : Int) = "5" := by
  refine ⟨rfl, rfl, by decide, by decide⟩

/-- C4 amended: on a successful envelope, the activity get handler returns
the not-found error naming the requested identifier whenever no record of
the data array carries it (including the empty array), and that error is
distinct from transport, decode and logical-API failures; the share get
handler returns its not-found error naming the identifier exactly when the
data array is empty (a non-empty array's first element is returned without
an identifier check — see the counterexample). -/
theorem getById_not_found_error (ids : String) (idn : Int) (cl : NextcloudClient)
    (raw : String) (jA : Json) (envA : OcsActivityListResponse)
    (jS : Json) (envS : OcsShareListResponse) (idS : Int)
    (hid : parseInt64 ids = some idn)
    (hA : decodeOcsActivityListResponse jA = .ok envA)
    (hokA : envA.meta.status = "ok")
    (hnomatch : ∀ a ∈ envA.data, a.activityID ≠ idn)
    (hS : decodeOcsShareListResponse jS = .ok envS)
    (hokS : envS.meta.status = "ok")
    (hempty : envS.data = []) :
    (getActivity (some ids) (.ok cl) (.response 200 raw (.parsed jA)) =
       .error (.notFound ("activity with ID " ++ ids ++ " not found")) ∧
     strHasSub ("activity with ID " ++ ids ++ " not found") ids = true) ∧
    (getShare (some idS) (.ok cl) (.response 200 raw (.parsed jS)) =
       .error (.notFound ("share with ID " ++ toString idS ++ " not found")) ∧
     strHasSub ("share with ID " ++ toString idS ++ " not found") (toString idS) = true) ∧
    (∀ s t, NcError.notFound s ≠ NcError.transport t) ∧
    (∀ s t, NcError.notFound s ≠ NcError.decode t) ∧
    (∀ s t, NcError.notFound s ≠ NcError.ocs t) := by
  refine ⟨⟨?_, ?_⟩, ⟨?_, ?_⟩, ?_, ?_, ?_⟩
  · rw [getActivity_decoded ids idn cl raw jA envA hid hA]
    rw [if_neg (by simp [hokA])]
    have hfind : envA.data.find? (fun a => a.activityID == idn) = none := by
      rw [List.find?_eq_none]
      intro a ha
      simpa using hnomatch a ha
    rw [hfind]
  · exact strHasSub_intro _ "activity with ID " ids " not found"
      (by simp [String.data_append])
  · rw [getShare_decoded idS cl raw jS envS hS]
    rw [if_neg (by simp [hokS]), hempty]
  · exact strHasSub_intro _ "share with ID " (toString idS) " not found"
      (by simp [String.data_append])
  · intro s t h
    exact NcError.noConfusion h
  · intro s t h
    exact NcError.noConfusion h
  · intro s t h
    exact NcError.noConfusion h

theorem getById_not_found_error_witness :
    parseInt64 "999" = some 999 ∧
    getActivity (some "999") (.ok ⟨"http://h/", "u", "p"⟩)
      (.response 200 "raw" (.parsed (mkOcsEnvelope "ok" 200 "OK" []))) =
      .error (.notFound ("activity with ID " ++ "999" ++ " not found")) ∧
    getShare (some 12) (.ok ⟨"http://h/", "u", "p"⟩)
      (.response 200 "raw" (.parsed (mkOcsEnvelope "ok" 200 "OK" []))) =
      .error (.notFound ("share with ID " ++ toString (12 : Int) ++ " not found")) := by
  have h := getById_not_found_error "999" 999 ⟨"http://h/", "u", "p"⟩ "raw"
    (mkOcsEnvelope "ok" 200 "OK" []) ⟨⟨"ok", 200, "OK"⟩, []⟩
    (mkOcsEnvelope "ok" 200 "OK" []) ⟨⟨"ok", 200, "OK"⟩, []⟩ 12
    rfl rfl rfl (by simp) rfl rfl rfl
  exact ⟨rfl, h.1.1, h.2.1.1⟩

/-- C9: parsing an identifier from its decimal wire text preserves the
value exactly for every value representable in a 64-bit signed integer, and
consequently the activity get handler compares records against exactly the
identifier the caller supplied: a record found under that identifier is
returned as is. -/
theorem identifier_parse_roundtrip (n : Int)
    (h₁ : -9223372036854775808 ≤ n) (h₂ : n ≤ 9223372036854775807) :
    parseInt64 (intDecimalString n) = some n ∧
    (∀ (cl : NextcloudClient) (raw : String) (j : Json)
       (env : OcsActivityListResponse) (a : Activity),
       decodeOcsActivityListResponse j = .ok env →
       env.meta.status = "ok" →
       env.data.find? (fun r => r.activityID == n) = some a →
       getActivity (some (intDecimalString n)) (.ok cl) (.response 200 raw (.parsed j)) =
         .ok a) := by
  have hp := parse_intDecimalString n h₁ h₂
  refine ⟨hp, ?_⟩
  intro cl raw j env a hdec hok hfind
  rw [getActivity_decoded (intDecimalString n) n cl raw j env hp hdec]
  rw [if_neg (by simp [hok]), hfind]

theorem identifier_parse_roundtrip_witness :
    (-9223372036854775808 : Int) ≤ -42 ∧ (-42 : Int) ≤ 9223372036854775807 ∧
    parseInt64 (intDecimalString (-42)) = some (-42) :=
  ⟨by decide, by decide, (identifier_parse_roundtrip (-42) (by decide) (by decide)).1⟩
